import Mathlib

/-!
# Pod-list processors of the cluster autoscaler

A shallow embedding of

* `cluster-autoscaler/core/podlistprocessor/filter_out_expendable.go`
* `cluster-autoscaler/core/podlistprocessor/clear_tpu_requests.go`

Go's `([]*apiv1.Pod, error)` result is an `Except Err (List Pod)`: `.error e` stands for
`return nil, e` and `.ok pods` for `return pods, nil`.  The mutable cluster snapshot is passed
explicitly; every call to a collaborator (`AllNodeLister().List()`, `ClusterSnapshot.AddPod`)
is appended to a trace, so that statements about which calls are made, and in which order,
can be written down.  `klog` calls only log and are left out.
-/

namespace Autoscaler

/-! ## Data model -/

/-- The part of `apiv1.PodSpec` the processors look at: the optional priority and the
resource requests (resource name and quantity). -/
structure PodSpec where
  Priority : Option Int
  Requests : List (String × Nat)
deriving DecidableEq, Repr

/-- The part of `apiv1.PodStatus` the processors look at. -/
structure PodStatus where
  NominatedNodeName : String
deriving DecidableEq, Repr

/-- An `apiv1.Pod`. -/
structure Pod where
  Name : String
  Namespace : String
  Spec : PodSpec
  Status : PodStatus
deriving DecidableEq, Repr

/-- An `apiv1.Node`. -/
structure Node where
  Name : String
deriving DecidableEq, Repr

/-- Modelled from the spec: the error categories of `utils/errors` are not among the source
files.  The source names `caerrors.InternalError`, which the spec calls "a distinct
internal-error kind"; `other` stands for the remaining categories. -/
inductive AutoscalerErrorType where
  | InternalError
  | other (name : String)
deriving DecidableEq, Repr

/-- A Go `error` value: either an error of a collaborator, or an autoscaler error of some
category built around another error. -/
inductive Err where
  | plain (msg : String)
  | autoscaler (errorType : AutoscalerErrorType) (cause : Err)
deriving DecidableEq, Repr

/-- Modelled from the spec: `caerrors.ToAutoscalerError` lives in `utils/errors`, which is not
among the source files.  The spec says that the failure "is wrapped into an internal-error
category before propagation" and calls the result "a wrapped internal error". -/
def ToAutoscalerError (defaultType : AutoscalerErrorType) (err : Err) : Err :=
  Err.autoscaler defaultType err

/-- The category of an error, when it is an autoscaler error. -/
def Err.kind : Err → Option AutoscalerErrorType
  | Err.plain _ => none
  | Err.autoscaler t _ => some t

/-- The error an autoscaler error was built around. -/
def Err.wrapped : Err → Option Err
  | Err.plain _ => none
  | Err.autoscaler _ cause => some cause

/-- `context.AutoscalingOptions`, restricted to the option that is read. -/
structure AutoscalingOptions where
  ExpendablePodsPriorityCutoff : Int
deriving DecidableEq, Repr

/-- The node lister returned by `context.AllNodeLister()`: `List` is what `List()` returns. -/
structure NodeLister where
  List : Except Err (List Node)

/-- The `ClusterSnapshot` interface over snapshots of type `σ`.  `AddPod s pod nodeName` gives
the error returned (`none` for `nil`) and the snapshot after the call; nothing is assumed
about what a failing call does to the snapshot. -/
structure ClusterSnapshot (σ : Type) where
  AddPod : σ → Pod → String → Option Err × σ

/-- The fields of `context.AutoscalingContext` that the processors use. -/
structure AutoscalingContext (σ : Type) where
  AutoscalingOptions : AutoscalingOptions
  AllNodeLister : NodeLister
  ClusterSnapshot : ClusterSnapshot σ

/-- One call to a collaborator of the processors, with the error `AddPod` returned. -/
inductive Call where
  | ListNodes
  | AddPod (pod : Pod) (nodeName : String) (err : Option Err)
deriving DecidableEq, Repr

/-- The mutable state around a processor: the snapshot and the calls made so far. -/
structure World (σ : Type) where
  snapshot : σ
  trace : List Call

/-- The call `context.AllNodeLister().List()`. -/
def World.ListNodes {σ : Type} (ctx : AutoscalingContext σ) (w : World σ) :
    Except Err (List Node) × World σ :=
  (ctx.AllNodeLister.List, { snapshot := w.snapshot, trace := w.trace ++ [Call.ListNodes] })

/-- The call `ctx.ClusterSnapshot.AddPod(pod, nodeName)`. -/
def World.AddPod {σ : Type} (ctx : AutoscalingContext σ) (w : World σ) (pod : Pod)
    (nodeName : String) : Option Err × World σ :=
  let r := ctx.ClusterSnapshot.AddPod w.snapshot pod nodeName
  (r.1, { snapshot := r.2, trace := w.trace ++ [Call.AddPod pod nodeName r.1] })

/-! ## The splitter (`core/utils`) -/

/-- Modelled from the spec: the default-priority substitution is not among the source files.
The spec asks for "a well-defined default" for a pod lacking an explicit priority and leaves
its value open, so it is the parameter `defaultPriority`. -/
def effectivePriority (defaultPriority : Int) (pod : Pod) : Int :=
  match pod.Spec.Priority with
  | some prio => prio
  | none => defaultPriority

/-- Modelled from the spec: the priority classifier of `core/utils` is not among the source
files.  "A pod is expendable iff its effective priority is strictly less than `cutoff`." -/
def isExpendable (defaultPriority : Int) (pod : Pod) (cutoff : Int) : Bool :=
  decide (effectivePriority defaultPriority pod < cutoff)

/-- Modelled from the spec: `core_utils.FilterOutExpendableAndSplit` lives in `core/utils`,
which is not among the source files.  The spec: for each pod, if expendable, drop it
entirely; else if the pod carries a non-empty preemption nomination, place it in
`waitingForPreemption`; else place it in `unschedulable`.  The node list "does not itself
move a pod between buckets".  The result is `(unschedulable, waitingForPreemption)`. -/
def FilterOutExpendableAndSplit (defaultPriority : Int) :
    List Pod → List Node → Int → List Pod × List Pod
  | [], _, _ => ([], [])
  | pod :: rest, nodes, cutoff =>
    let r := FilterOutExpendableAndSplit defaultPriority rest nodes cutoff
    if isExpendable defaultPriority pod cutoff then r
    else if pod.Status.NominatedNodeName ≠ "" then (r.1, pod :: r.2)
    else (pod :: r.1, r.2)

/-! ## `filter_out_expendable.go` -/

namespace filterOutExpandable

/-- The loop of `addPreemptiblePodsToSnapshot`: `AddPod` for each pod in turn at its
`Status.NominatedNodeName`; the first error is converted with `ToAutoscalerError` and
returned at once. -/
def addPreemptiblePodsToSnapshot {σ : Type} (ctx : AutoscalingContext σ) :
    List Pod → World σ → Option Err × World σ
  | [], w => (none, w)
  | p :: rest, w =>
    match World.AddPod ctx w p p.Status.NominatedNodeName with
    | (some err, w1) => (some (ToAutoscalerError AutoscalerErrorType.InternalError err), w1)
    | (none, w1) => addPreemptiblePodsToSnapshot ctx rest w1

/-- `Process`: list the nodes, split the pods, add the pods waiting for preemption to the
snapshot, return the unschedulable pods. -/
def Process {σ : Type} (defaultPriority : Int) (ctx : AutoscalingContext σ) (pods : List Pod)
    (w : World σ) : Except Err (List Pod) × World σ :=
  match World.ListNodes ctx w with
  | (Except.error err, w1) => (Except.error err, w1)
  | (Except.ok nodes, w1) =>
    let expendablePodsPriorityCutoff := ctx.AutoscalingOptions.ExpendablePodsPriorityCutoff
    let split := FilterOutExpendableAndSplit defaultPriority pods nodes expendablePodsPriorityCutoff
    match addPreemptiblePodsToSnapshot ctx split.2 w1 with
    | (some err, w2) => (Except.error err, w2)
    | (none, w2) => (Except.ok split.1, w2)

end filterOutExpandable

/-! ## `utils/tpu` and `clear_tpu_requests.go` -/

namespace tpu

/-- Modelled from the spec: the accelerator signature test of `utils/tpu` is not among the
source files.  A pod matches when one of its resource requests is accelerator-specific;
which resource names are accelerator-specific is the parameter `isTPUResource`. -/
def hasTPURequest (isTPUResource : String → Bool) (pod : Pod) : Bool :=
  pod.Spec.Requests.any (fun r => isTPUResource r.1)

/-- Modelled from the spec: clearing the accelerator-specific request fields of one pod
(`utils/tpu` is not among the source files). -/
def clearTPURequest (isTPUResource : String → Bool) (pod : Pod) : Pod :=
  { pod with Spec := { pod.Spec with
      Requests := pod.Spec.Requests.filter (fun r => !isTPUResource r.1) } }

/-- Modelled from the spec: `tpu.ClearTPURequests` lives in `utils/tpu`, which is not among
the source files.  "For each pod whose resource requests match a specialized-accelerator
device-class signature, clear [...] the accelerator-specific request fields [...]; pods not
matching the signature pass through unchanged." -/
def ClearTPURequests (isTPUResource : String → Bool) (pods : List Pod) : List Pod :=
  pods.map (fun pod =>
    if hasTPURequest isTPUResource pod then clearTPURequest isTPUResource pod else pod)

end tpu

namespace clearTPURequests

/-- `Process`: `return tpu.ClearTPURequests(unschedulablePods), nil`. -/
def Process {σ : Type} (isTPUResource : String → Bool) (_ctx : AutoscalingContext σ)
    (unschedulablePods : List Pod) (w : World σ) : Except Err (List Pod) × World σ :=
  (Except.ok (tpu.ClearTPURequests isTPUResource unschedulablePods), w)

end clearTPURequests

/-! ## Vocabulary of the statements -/

/-- The snapshot after `AddPod` has been called for each pod of the list, in list order, each
at its own `Status.NominatedNodeName`. -/
def snapshotAfter {σ : Type} (ctx : AutoscalingContext σ) : σ → List Pod → σ
  | s, [] => s
  | s, p :: rest =>
    snapshotAfter ctx (ctx.ClusterSnapshot.AddPod s p p.Status.NominatedNodeName).2 rest

/-- Whether `AddPod`, called for each pod of the list in list order starting from snapshot
`s`, returns no error for any of them. -/
def allAddPodsSucceed {σ : Type} (ctx : AutoscalingContext σ) : σ → List Pod → Bool
  | _, [] => true
  | s, p :: rest =>
    (ctx.ClusterSnapshot.AddPod s p p.Status.NominatedNodeName).1.isNone &&
      allAddPodsSucceed ctx (ctx.ClusterSnapshot.AddPod s p p.Status.NominatedNodeName).2 rest

/-- The successful calls `AddPod(p, p.Status.NominatedNodeName)`, one per pod, in order. -/
def addPodCalls (pods : List Pod) : List Call :=
  pods.map (fun p => Call.AddPod p p.Status.NominatedNodeName none)

/-- The calls made between two states of the world. -/
def callsMade {σ : Type} (before after : World σ) : List Call :=
  after.trace.drop before.trace.length

/-- The pod was passed to `AddPod` in one of the calls. -/
def passedToAddPod (pod : Pod) (calls : List Call) : Prop :=
  ∃ nodeName err, Call.AddPod pod nodeName err ∈ calls

/-- The pod was inserted into the snapshot: an `AddPod` call for it returned no error. -/
def insertedIntoSnapshot (pod : Pod) (calls : List Call) : Prop :=
  ∃ nodeName, Call.AddPod pod nodeName none ∈ calls

/-- The pod appears in the list a processor returned; an error result carries no list. -/
def returnedIn (pod : Pod) (result : Except Err (List Pod)) : Prop :=
  ∃ out, result = Except.ok out ∧ pod ∈ out

/-- Exactly one of three propositions holds. -/
def exactlyOne (a b c : Prop) : Prop :=
  (a ∧ ¬ b ∧ ¬ c) ∨ (¬ a ∧ b ∧ ¬ c) ∨ (¬ a ∧ ¬ b ∧ c)

/-! ## A concrete snapshot and the scenarios of the spec -/

/-- Modelled from the spec: the cluster snapshot implementation is not among the source
files.  The spec: "mapping locations to the pods tentatively placed there; supports
inserting a pod at a named location, fails if the insertion is inconsistent (e.g., unknown
location)". -/
structure BasicSnapshot where
  nodes : List String
  placed : List (String × Pod)
deriving DecidableEq, Repr

/-- Insertion into a `BasicSnapshot`: fails on an unknown location. -/
def BasicSnapshot.AddPod (s : BasicSnapshot) (pod : Pod) (nodeName : String) :
    Option Err × BasicSnapshot :=
  if nodeName ∈ s.nodes then (none, { nodes := s.nodes, placed := s.placed ++ [(nodeName, pod)] })
  else (some (Err.plain "node not found"), s)

/-- A context over `BasicSnapshot` with the given cutoff and listed nodes. -/
def basicContext (cutoff : Int) (listed : Except Err (List Node)) :
    AutoscalingContext BasicSnapshot :=
  { AutoscalingOptions := { ExpendablePodsPriorityCutoff := cutoff }
    AllNodeLister := { List := listed }
    ClusterSnapshot := { AddPod := BasicSnapshot.AddPod } }

/-- A pod with the given name, priority and nomination, without resource requests. -/
def mkPod (name : String) (prio : Option Int) (nominated : String) : Pod :=
  { Name := name, Namespace := "default", Spec := { Priority := prio, Requests := [] },
    Status := { NominatedNodeName := nominated } }

/-- Pod A of the end-to-end scenario: priority -5, no nomination. -/
def podA : Pod := mkPod "A" (some (-5)) ""

/-- Pod B of the end-to-end scenario: priority 10, nominated to node1. -/
def podB : Pod := mkPod "B" (some 10) "node1"

/-- Pod C of the end-to-end scenario: priority 10, no nomination. -/
def podC : Pod := mkPod "C" (some 10) ""

/-- A pod of priority 10 nominated to a node the snapshot does not know. -/
def podD : Pod := mkPod "D" (some 10) "node2"

/-- A second pod of priority 10 nominated to node1. -/
def podE : Pod := mkPod "E" (some 10) "node1"

/-- A pod of priority -1, below the cutoff of the scenarios, nominated to node1. -/
def podF : Pod := mkPod "F" (some (-1)) "node1"

/-- A pod requesting an accelerator resource next to cpu. -/
def podT : Pod :=
  { Name := "T", Namespace := "default",
    Spec := { Priority := some 10, Requests := [("accelerator", 8), ("cpu", 2)] },
    Status := { NominatedNodeName := "" } }

/-- The accelerator signature of the examples: the resource named accelerator. -/
def exampleSignature (resourceName : String) : Bool :=
  decide (resourceName = "accelerator")

/-- A world whose snapshot knows node1 only and holds no pod; no call made yet. -/
def worldNode1 : World BasicSnapshot :=
  { snapshot := { nodes := ["node1"], placed := [] }, trace := [] }

/-- A world whose snapshot knows no node at all. -/
def worldNoNode : World BasicSnapshot :=
  { snapshot := { nodes := [], placed := [] }, trace := [] }

/-- The context of the end-to-end scenarios: cutoff 0, node listing succeeds with node1. -/
def scenarioContext : AutoscalingContext BasicSnapshot :=
  basicContext 0 (Except.ok [{ Name := "node1" }])

/-- Another implementation of the `ClusterSnapshot` interface over `BasicSnapshot`: an
insertion at an unknown location returns an error, yet the pod is recorded all the same. -/
def BasicSnapshot.AddPodKeeping (s : BasicSnapshot) (pod : Pod) (nodeName : String) :
    Option Err × BasicSnapshot :=
  if nodeName ∈ s.nodes then (none, { nodes := s.nodes, placed := s.placed ++ [(nodeName, pod)] })
  else (some (Err.plain "node not found"),
    { nodes := s.nodes, placed := s.placed ++ [(nodeName, pod)] })

/-- The context of the end-to-end scenarios over the implementation whose failing insertion
still records the pod: cutoff 0, node listing succeeds with node1. -/
def keepingContext : AutoscalingContext BasicSnapshot :=
  { AutoscalingOptions := { ExpendablePodsPriorityCutoff := 0 }
    AllNodeLister := { List := Except.ok [{ Name := "node1" }] }
    ClusterSnapshot := { AddPod := BasicSnapshot.AddPodKeeping } }

/-! ## Lemmas on the splitter -/

theorem split_fst_eq_filter (d : Int) (pods : List Pod) (nodes : List Node) (cutoff : Int) :
    (FilterOutExpendableAndSplit d pods nodes cutoff).1 =
      pods.filter (fun p => !isExpendable d p cutoff && decide (p.Status.NominatedNodeName = "")) := by
  induction pods with
  | nil => rfl
  | cons p rest ih =>
    simp only [FilterOutExpendableAndSplit]
    by_cases hx : isExpendable d p cutoff = true
    · simp [hx, ih]
    · by_cases hn : p.Status.NominatedNodeName = ""
      · simp [hx, hn, ih]
      · simp [hx, hn, ih]

theorem split_snd_eq_filter (d : Int) (pods : List Pod) (nodes : List Node) (cutoff : Int) :
    (FilterOutExpendableAndSplit d pods nodes cutoff).2 =
      pods.filter (fun p => !isExpendable d p cutoff && decide (p.Status.NominatedNodeName ≠ "")) := by
  induction pods with
  | nil => rfl
  | cons p rest ih =>
    simp only [FilterOutExpendableAndSplit]
    by_cases hx : isExpendable d p cutoff = true
    · simp [hx, ih]
    · by_cases hn : p.Status.NominatedNodeName = ""
      · simp [hx, hn, ih]
      · simp [hx, hn, ih]

theorem mem_split_fst (d : Int) (pods : List Pod) (nodes : List Node) (cutoff : Int) (p : Pod) :
    p ∈ (FilterOutExpendableAndSplit d pods nodes cutoff).1 ↔
      p ∈ pods ∧ isExpendable d p cutoff = false ∧ p.Status.NominatedNodeName = "" := by
  rw [split_fst_eq_filter]
  simp [List.mem_filter]

theorem mem_split_snd (d : Int) (pods : List Pod) (nodes : List Node) (cutoff : Int) (p : Pod) :
    p ∈ (FilterOutExpendableAndSplit d pods nodes cutoff).2 ↔
      p ∈ pods ∧ isExpendable d p cutoff = false ∧ p.Status.NominatedNodeName ≠ "" := by
  rw [split_snd_eq_filter]
  simp [List.mem_filter]

theorem isExpendable_eq_true_iff (d : Int) (p : Pod) (cutoff : Int) :
    isExpendable d p cutoff = true ↔ effectivePriority d p < cutoff := by
  simp [isExpendable]

theorem isExpendable_eq_false_iff (d : Int) (p : Pod) (cutoff : Int) :
    isExpendable d p cutoff = false ↔ cutoff ≤ effectivePriority d p := by
  simp [isExpendable]

/-! ## Lemmas on `addPreemptiblePodsToSnapshot` -/

open filterOutExpandable

theorem callsMade_append {σ : Type} (w : World σ) (s : σ) (calls : List Call) :
    callsMade w { snapshot := s, trace := w.trace ++ calls } = calls := by
  simp [callsMade]

/-- When every `AddPod` succeeds, the loop calls it once per pod, in order, and returns nil. -/
theorem addPreemptible_of_succeed {σ : Type} (ctx : AutoscalingContext σ) (ws : List Pod) :
    ∀ w : World σ, allAddPodsSucceed ctx w.snapshot ws = true →
      addPreemptiblePodsToSnapshot ctx ws w =
        (none, { snapshot := snapshotAfter ctx w.snapshot ws,
                 trace := w.trace ++ addPodCalls ws }) := by
  induction ws with
  | nil => intro w _; simp [addPreemptiblePodsToSnapshot, snapshotAfter, addPodCalls]
  | cons p rest ih =>
    intro w h
    simp only [allAddPodsSucceed, Bool.and_eq_true, Option.isNone_iff_eq_none] at h
    obtain ⟨h1, h2⟩ := h
    have hw : World.AddPod ctx w p p.Status.NominatedNodeName =
        (none, { snapshot := (ctx.ClusterSnapshot.AddPod w.snapshot p p.Status.NominatedNodeName).2,
                 trace := w.trace ++ [Call.AddPod p p.Status.NominatedNodeName none] }) := by
      simp [World.AddPod, h1]
    rw [addPreemptiblePodsToSnapshot, hw]
    simp only
    rw [ih _ h2]
    simp [snapshotAfter, addPodCalls]

/-- The loop returns nil only when every `AddPod` succeeded. -/
theorem succeed_of_addPreemptible {σ : Type} (ctx : AutoscalingContext σ) (ws : List Pod) :
    ∀ w : World σ, (addPreemptiblePodsToSnapshot ctx ws w).1 = none →
      allAddPodsSucceed ctx w.snapshot ws = true := by
  induction ws with
  | nil => intro w _; rfl
  | cons p rest ih =>
    intro w h
    rw [addPreemptiblePodsToSnapshot] at h
    cases hr : (ctx.ClusterSnapshot.AddPod w.snapshot p p.Status.NominatedNodeName).1 with
    | some e => simp [World.AddPod, hr] at h
    | none =>
      simp only [World.AddPod, hr] at h
      have := ih _ h
      simp [allAddPodsSucceed, hr, this]

/-- A failing `AddPod` after a run of successful ones: the loop stops right there. -/
theorem addPreemptible_of_fail {σ : Type} (ctx : AutoscalingContext σ) (done rest : List Pod)
    (p : Pod) (e : Err) (w : World σ)
    (hdone : allAddPodsSucceed ctx w.snapshot done = true)
    (hfail : (ctx.ClusterSnapshot.AddPod (snapshotAfter ctx w.snapshot done) p
        p.Status.NominatedNodeName).1 = some e) :
    addPreemptiblePodsToSnapshot ctx (done ++ p :: rest) w =
      (some (ToAutoscalerError AutoscalerErrorType.InternalError e),
       { snapshot := (ctx.ClusterSnapshot.AddPod (snapshotAfter ctx w.snapshot done) p
            p.Status.NominatedNodeName).2,
         trace := w.trace ++ (addPodCalls done ++
            [Call.AddPod p p.Status.NominatedNodeName (some e)]) }) := by
  induction done generalizing w with
  | nil =>
    simp only [snapshotAfter] at hfail
    simp [addPreemptiblePodsToSnapshot, World.AddPod, hfail, snapshotAfter, addPodCalls]
  | cons q qs ih =>
    simp only [allAddPodsSucceed, Bool.and_eq_true, Option.isNone_iff_eq_none] at hdone
    obtain ⟨h1, h2⟩ := hdone
    simp only [snapshotAfter] at hfail
    have := ih { snapshot := (ctx.ClusterSnapshot.AddPod w.snapshot q q.Status.NominatedNodeName).2,
                 trace := w.trace ++ [Call.AddPod q q.Status.NominatedNodeName none] } h2 hfail
    rw [List.cons_append, addPreemptiblePodsToSnapshot]
    simp only [World.AddPod, h1]
    rw [this]
    simp [snapshotAfter, addPodCalls]

/-- Every call the loop makes is an `AddPod` for a pod of its list at that pod's nominated
node. -/
theorem addPreemptible_calls {σ : Type} (ctx : AutoscalingContext σ) (ws : List Pod) :
    ∀ w : World σ, ∃ calls, (addPreemptiblePodsToSnapshot ctx ws w).2.trace = w.trace ++ calls ∧
      ∀ c ∈ calls, ∃ q ∈ ws, ∃ r, c = Call.AddPod q q.Status.NominatedNodeName r := by
  induction ws with
  | nil => intro w; exact ⟨[], by simp [addPreemptiblePodsToSnapshot], by simp⟩
  | cons p rest ih =>
    intro w
    rw [addPreemptiblePodsToSnapshot]
    cases hr : (ctx.ClusterSnapshot.AddPod w.snapshot p p.Status.NominatedNodeName).1 with
    | some e =>
      refine ⟨[Call.AddPod p p.Status.NominatedNodeName (some e)], by simp [World.AddPod, hr], ?_⟩
      intro c hc
      simp only [List.mem_singleton] at hc
      exact ⟨p, by simp, some e, hc⟩
    | none =>
      simp only [World.AddPod, hr]
      obtain ⟨calls, h1, h2⟩ := ih
        { snapshot := (ctx.ClusterSnapshot.AddPod w.snapshot p p.Status.NominatedNodeName).2,
          trace := w.trace ++ [Call.AddPod p p.Status.NominatedNodeName none] }
      refine ⟨Call.AddPod p p.Status.NominatedNodeName none :: calls, by simp [h1], ?_⟩
      intro c hc
      rcases List.mem_cons.1 hc with hc | hc
      · exact ⟨p, by simp, none, hc⟩
      · obtain ⟨q, hq, r, hqr⟩ := h2 c hc
        exact ⟨q, List.mem_cons_of_mem _ hq, r, hqr⟩

/-- After a run of successful `AddPod` calls the loop goes on with the remaining pods. -/
theorem addPreemptible_append {σ : Type} (ctx : AutoscalingContext σ) (done rest : List Pod)
    (w : World σ) (hdone : allAddPodsSucceed ctx w.snapshot done = true) :
    addPreemptiblePodsToSnapshot ctx (done ++ rest) w =
      addPreemptiblePodsToSnapshot ctx rest
        { snapshot := snapshotAfter ctx w.snapshot done, trace := w.trace ++ addPodCalls done } := by
  induction done generalizing w with
  | nil => simp [snapshotAfter, addPodCalls]
  | cons q qs ih =>
    simp only [allAddPodsSucceed, Bool.and_eq_true, Option.isNone_iff_eq_none] at hdone
    obtain ⟨h1, h2⟩ := hdone
    have := ih { snapshot := (ctx.ClusterSnapshot.AddPod w.snapshot q q.Status.NominatedNodeName).2,
                 trace := w.trace ++ [Call.AddPod q q.Status.NominatedNodeName none] } h2
    rw [List.cons_append, addPreemptiblePodsToSnapshot]
    simp only [World.AddPod, h1]
    rw [this]
    simp [snapshotAfter, addPodCalls]

/-- The first pod of the list is always passed to `AddPod`. -/
theorem addPreemptible_head_called {σ : Type} (ctx : AutoscalingContext σ) (p : Pod)
    (rest : List Pod) (w : World σ) :
    ∃ r calls, (addPreemptiblePodsToSnapshot ctx (p :: rest) w).2.trace =
      w.trace ++ Call.AddPod p p.Status.NominatedNodeName r :: calls := by
  rw [addPreemptiblePodsToSnapshot]
  cases hr : (ctx.ClusterSnapshot.AddPod w.snapshot p p.Status.NominatedNodeName).1 with
  | some e => exact ⟨some e, [], by simp [World.AddPod, hr]⟩
  | none =>
    simp only [World.AddPod, hr]
    obtain ⟨calls, h1, _⟩ := addPreemptible_calls ctx rest
      { snapshot := (ctx.ClusterSnapshot.AddPod w.snapshot p p.Status.NominatedNodeName).2,
        trace := w.trace ++ [Call.AddPod p p.Status.NominatedNodeName none] }
    exact ⟨none, calls, by simp [h1]⟩

/-! ## Lemmas on `filterOutExpandable.Process` -/

theorem Process_of_list_error {σ : Type} (d : Int) (ctx : AutoscalingContext σ)
    (pods : List Pod) (w : World σ) (e : Err) (h : ctx.AllNodeLister.List = Except.error e) :
    Process d ctx pods w =
      (Except.error e, { snapshot := w.snapshot, trace := w.trace ++ [Call.ListNodes] }) := by
  simp [Process, World.ListNodes, h]

theorem Process_of_list_ok {σ : Type} (d : Int) (ctx : AutoscalingContext σ)
    (pods : List Pod) (w : World σ) (nodes : List Node)
    (h : ctx.AllNodeLister.List = Except.ok nodes) :
    Process d ctx pods w =
      match addPreemptiblePodsToSnapshot ctx
          (FilterOutExpendableAndSplit d pods nodes
            ctx.AutoscalingOptions.ExpendablePodsPriorityCutoff).2
          { snapshot := w.snapshot, trace := w.trace ++ [Call.ListNodes] } with
      | (some err, w2) => (Except.error err, w2)
      | (none, w2) =>
        (Except.ok (FilterOutExpendableAndSplit d pods nodes
            ctx.AutoscalingOptions.ExpendablePodsPriorityCutoff).1, w2) := by
  simp [Process, World.ListNodes, h]

/-- A successful run: the listing succeeded, every `AddPod` succeeded, and the result and the
final world are those of the splitter and of the sequence of insertions. -/
theorem Process_ok_inv {σ : Type} (d : Int) (ctx : AutoscalingContext σ) (pods : List Pod)
    (w : World σ) (out : List Pod) (h : (Process d ctx pods w).1 = Except.ok out) :
    ∃ nodes, ctx.AllNodeLister.List = Except.ok nodes ∧
      out = (FilterOutExpendableAndSplit d pods nodes
        ctx.AutoscalingOptions.ExpendablePodsPriorityCutoff).1 ∧
      allAddPodsSucceed ctx w.snapshot (FilterOutExpendableAndSplit d pods nodes
        ctx.AutoscalingOptions.ExpendablePodsPriorityCutoff).2 = true ∧
      (Process d ctx pods w).2 =
        { snapshot := snapshotAfter ctx w.snapshot (FilterOutExpendableAndSplit d pods nodes
            ctx.AutoscalingOptions.ExpendablePodsPriorityCutoff).2,
          trace := w.trace ++ Call.ListNodes :: addPodCalls (FilterOutExpendableAndSplit d pods
            nodes ctx.AutoscalingOptions.ExpendablePodsPriorityCutoff).2 } := by
  cases hl : ctx.AllNodeLister.List with
  | error e => rw [Process_of_list_error d ctx pods w e hl] at h; simp at h
  | ok nodes =>
    refine ⟨nodes, rfl, ?_⟩
    rw [Process_of_list_ok d ctx pods w nodes hl] at h ⊢
    cases hr : (addPreemptiblePodsToSnapshot ctx
        (FilterOutExpendableAndSplit d pods nodes
          ctx.AutoscalingOptions.ExpendablePodsPriorityCutoff).2
        { snapshot := w.snapshot, trace := w.trace ++ [Call.ListNodes] }) with
    | mk r w2 =>
      rw [hr] at h
      cases r with
      | some e => simp at h
      | none =>
        simp only at h
        have hs := succeed_of_addPreemptible ctx _ _ (by rw [hr])
        simp only at hs
        have := addPreemptible_of_succeed ctx _
          { snapshot := w.snapshot, trace := w.trace ++ [Call.ListNodes] } hs
        rw [hr] at this
        simp only [Prod.mk.injEq, true_and] at this
        refine ⟨(Except.ok.inj h).symm, hs, ?_⟩
        simp [this]

/-- Every run starts with the node listing; every call after it is an `AddPod` for a pod of
the input that is not expendable and carries a nomination, at its nominated node. -/
theorem Process_calls {σ : Type} (d : Int) (ctx : AutoscalingContext σ) (pods : List Pod)
    (w : World σ) :
    ∃ calls, (Process d ctx pods w).2.trace = w.trace ++ Call.ListNodes :: calls ∧
      ∀ c ∈ calls, ∃ q ∈ pods,
        isExpendable d q ctx.AutoscalingOptions.ExpendablePodsPriorityCutoff = false ∧
        q.Status.NominatedNodeName ≠ "" ∧
        ∃ r, c = Call.AddPod q q.Status.NominatedNodeName r := by
  cases hl : ctx.AllNodeLister.List with
  | error e =>
    rw [Process_of_list_error d ctx pods w e hl]
    exact ⟨[], by simp, by simp⟩
  | ok nodes =>
    rw [Process_of_list_ok d ctx pods w nodes hl]
    obtain ⟨calls, h1, h2⟩ := addPreemptible_calls ctx
      (FilterOutExpendableAndSplit d pods nodes
        ctx.AutoscalingOptions.ExpendablePodsPriorityCutoff).2
      { snapshot := w.snapshot, trace := w.trace ++ [Call.ListNodes] }
    refine ⟨calls, ?_, ?_⟩
    · cases hr : (addPreemptiblePodsToSnapshot ctx
          (FilterOutExpendableAndSplit d pods nodes
            ctx.AutoscalingOptions.ExpendablePodsPriorityCutoff).2
          { snapshot := w.snapshot, trace := w.trace ++ [Call.ListNodes] }) with
      | mk r w2 =>
        rw [hr] at h1
        cases r <;> simpa using h1
    · intro c hc
      obtain ⟨q, hq, r, hqr⟩ := h2 c hc
      obtain ⟨hq1, hq2, hq3⟩ := (mem_split_snd d pods nodes _ q).1 hq
      exact ⟨q, hq1, hq2, hq3, r, hqr⟩

/-- A pod of the returned list is a pod of the input that is not expendable and carries no
nomination. -/
theorem Process_returned {σ : Type} (d : Int) (ctx : AutoscalingContext σ) (pods : List Pod)
    (w : World σ) (p : Pod) (h : returnedIn p (Process d ctx pods w).1) :
    p ∈ pods ∧ isExpendable d p ctx.AutoscalingOptions.ExpendablePodsPriorityCutoff = false ∧
      p.Status.NominatedNodeName = "" := by
  obtain ⟨out, hout, hp⟩ := h
  obtain ⟨nodes, _, ho, _, _⟩ := Process_ok_inv d ctx pods w out hout
  rw [ho] at hp
  exact (mem_split_fst d pods nodes _ p).1 hp

/-- A pod passed to `AddPod` during a run is a pod of the input that is not expendable and
carries a nomination. -/
theorem Process_passed {σ : Type} (d : Int) (ctx : AutoscalingContext σ) (pods : List Pod)
    (w : World σ) (p : Pod) (h : passedToAddPod p (callsMade w (Process d ctx pods w).2)) :
    p ∈ pods ∧ isExpendable d p ctx.AutoscalingOptions.ExpendablePodsPriorityCutoff = false ∧
      p.Status.NominatedNodeName ≠ "" := by
  obtain ⟨calls, h1, h2⟩ := Process_calls d ctx pods w
  obtain ⟨n, r, hc⟩ := h
  simp only [callsMade, h1, List.drop_left, List.mem_cons] at hc
  rcases hc with hc | hc
  · cases hc
  · obtain ⟨q, hq1, hq2, hq3, r2, hqr⟩ := h2 _ hc
    cases hqr
    exact ⟨hq1, hq2, hq3⟩

/-! ## The claims on `filterOutExpandable` -/

/-- C1: if `AddPod` fails with `e` for a waiting pod `p` after succeeding for the waiting pods
`done` before it, then `addPreemptiblePodsToSnapshot` returns `ToAutoscalerError InternalError e`,
an error of the internal-error kind built around `e`, and `Process` returns no pod list
together with that error; the calls made are the node listing, the calls for `done` and the
failing call, so `AddPod` is not called for any of the pods `rest` after the failing one. -/
theorem C1_addPod_failure_aborts {σ : Type} (ctx : AutoscalingContext σ) (w : World σ)
    (done rest : List Pod) (p : Pod) (e : Err)
    (hdone : allAddPodsSucceed ctx w.snapshot done = true)
    (hfail : (ctx.ClusterSnapshot.AddPod (snapshotAfter ctx w.snapshot done) p
        p.Status.NominatedNodeName).1 = some e) :
    (addPreemptiblePodsToSnapshot ctx (done ++ p :: rest) w).1 =
        some (ToAutoscalerError AutoscalerErrorType.InternalError e) ∧
    callsMade w (addPreemptiblePodsToSnapshot ctx (done ++ p :: rest) w).2 =
        addPodCalls done ++ [Call.AddPod p p.Status.NominatedNodeName (some e)] ∧
    (ToAutoscalerError AutoscalerErrorType.InternalError e).kind =
        some AutoscalerErrorType.InternalError ∧
    (ToAutoscalerError AutoscalerErrorType.InternalError e).wrapped = some e ∧
    ∀ (d : Int) (pods : List Pod) (nodes : List Node),
      ctx.AllNodeLister.List = Except.ok nodes →
      (FilterOutExpendableAndSplit d pods nodes
        ctx.AutoscalingOptions.ExpendablePodsPriorityCutoff).2 = done ++ p :: rest →
      (Process d ctx pods w).1 =
          Except.error (ToAutoscalerError AutoscalerErrorType.InternalError e) ∧
      callsMade w (Process d ctx pods w).2 =
          Call.ListNodes :: (addPodCalls done ++
            [Call.AddPod p p.Status.NominatedNodeName (some e)]) := by
  refine ⟨?_, ?_, rfl, rfl, ?_⟩
  · rw [addPreemptible_of_fail ctx done rest p e w hdone hfail]
  · rw [addPreemptible_of_fail ctx done rest p e w hdone hfail]
    exact callsMade_append w _ _
  · intro d pods nodes hl hs
    rw [Process_of_list_ok d ctx pods w nodes hl, hs,
      addPreemptible_of_fail ctx done rest p e
        { snapshot := w.snapshot, trace := w.trace ++ [Call.ListNodes] } hdone hfail]
    refine ⟨rfl, ?_⟩
    simp [callsMade]

/-- C1, at the second end-to-end scenario extended by a later waiting pod: the snapshot knows
no node, `AddPod` fails for B, and E, which comes after B, is never passed to `AddPod`. -/
theorem C1_addPod_failure_aborts_witness :
    allAddPodsSucceed scenarioContext worldNoNode.snapshot [] = true ∧
    (Process 0 scenarioContext [podA, podB, podC, podE] worldNoNode).1 =
      Except.error (ToAutoscalerError AutoscalerErrorType.InternalError
        (Err.plain "node not found")) ∧
    callsMade worldNoNode (Process 0 scenarioContext [podA, podB, podC, podE] worldNoNode).2 =
      [Call.ListNodes, Call.AddPod podB "node1" (some (Err.plain "node not found"))] :=
  ⟨rfl, (C1_addPod_failure_aborts scenarioContext worldNoNode [] [podE] podB
    (Err.plain "node not found") rfl rfl).2.2.2.2 0 [podA, podB, podC, podE]
    [{ Name := "node1" }] rfl rfl⟩

/-- C2: when the node listing succeeds and every `AddPod` call succeeds, `Process` returns,
with a nil error, exactly the unschedulable list of the splitter, and the calls it makes
after the listing are exactly one `AddPod` per pod of the waiting-for-preemption list of the
splitter, in list order, each at the pod's own `Status.NominatedNodeName`; the snapshot is the
one these insertions produce. -/
theorem C2_success_calls_and_result {σ : Type} (d : Int) (ctx : AutoscalingContext σ)
    (pods : List Pod) (w : World σ) (nodes : List Node)
    (hl : ctx.AllNodeLister.List = Except.ok nodes)
    (hall : allAddPodsSucceed ctx w.snapshot (FilterOutExpendableAndSplit d pods nodes
        ctx.AutoscalingOptions.ExpendablePodsPriorityCutoff).2 = true) :
    (Process d ctx pods w).1 = Except.ok (FilterOutExpendableAndSplit d pods nodes
        ctx.AutoscalingOptions.ExpendablePodsPriorityCutoff).1 ∧
    callsMade w (Process d ctx pods w).2 =
      Call.ListNodes :: (FilterOutExpendableAndSplit d pods nodes
        ctx.AutoscalingOptions.ExpendablePodsPriorityCutoff).2.map
          (fun p => Call.AddPod p p.Status.NominatedNodeName none) ∧
    (Process d ctx pods w).2.snapshot = snapshotAfter ctx w.snapshot
      (FilterOutExpendableAndSplit d pods nodes
        ctx.AutoscalingOptions.ExpendablePodsPriorityCutoff).2 := by
  rw [Process_of_list_ok d ctx pods w nodes hl,
    addPreemptible_of_succeed ctx _
      { snapshot := w.snapshot, trace := w.trace ++ [Call.ListNodes] } hall]
  refine ⟨rfl, ?_, rfl⟩
  simp [callsMade, addPodCalls]

/-- C2, at the first end-to-end scenario with a second nominated pod: B and E are inserted at
node1, in that order, and C is returned. -/
theorem C2_success_calls_and_result_witness :
    (Process 0 scenarioContext [podA, podB, podC, podE] worldNode1).1 = Except.ok [podC] ∧
    callsMade worldNode1 (Process 0 scenarioContext [podA, podB, podC, podE] worldNode1).2 =
      [Call.ListNodes, Call.AddPod podB "node1" none, Call.AddPod podE "node1" none] ∧
    (Process 0 scenarioContext [podA, podB, podC, podE] worldNode1).2.snapshot =
      { nodes := ["node1"], placed := [("node1", podB), ("node1", podE)] } :=
  C2_success_calls_and_result 0 scenarioContext [podA, podB, podC, podE] worldNode1
    [{ Name := "node1" }] rfl rfl

/-- C3: if `List()` of the node lister fails with `e`, `Process` returns no pod list and
exactly `e`; the only call made is the listing, so `AddPod` is never called, and the snapshot
is the one `Process` started with. -/
theorem C3_list_failure_propagates {σ : Type} (d : Int) (ctx : AutoscalingContext σ)
    (pods : List Pod) (w : World σ) (e : Err)
    (hl : ctx.AllNodeLister.List = Except.error e) :
    (Process d ctx pods w).1 = Except.error e ∧
    callsMade w (Process d ctx pods w).2 = [Call.ListNodes] ∧
    (∀ p, ¬ passedToAddPod p (callsMade w (Process d ctx pods w).2)) ∧
    (Process d ctx pods w).2.snapshot = w.snapshot := by
  rw [Process_of_list_error d ctx pods w e hl]
  have hc : callsMade w { snapshot := w.snapshot, trace := w.trace ++ [Call.ListNodes] } =
      [Call.ListNodes] := callsMade_append w _ _
  refine ⟨rfl, hc, ?_, rfl⟩
  rintro p ⟨n, r, h⟩
  rw [hc] at h
  simp at h

/-- C3, with a lister that fails and the pods of the end-to-end scenario. -/
theorem C3_list_failure_propagates_witness :
    (Process 0 (basicContext 0 (Except.error (Err.plain "lister down"))) [podA, podB, podC]
      worldNode1).1 = Except.error (Err.plain "lister down") ∧
    (Process 0 (basicContext 0 (Except.error (Err.plain "lister down"))) [podA, podB, podC]
      worldNode1).2.snapshot = worldNode1.snapshot :=
  ⟨(C3_list_failure_propagates 0 (basicContext 0 (Except.error (Err.plain "lister down")))
      [podA, podB, podC] worldNode1 (Err.plain "lister down") rfl).1,
   (C3_list_failure_propagates 0 (basicContext 0 (Except.error (Err.plain "lister down")))
      [podA, podB, podC] worldNode1 (Err.plain "lister down") rfl).2.2.2⟩

/-- C10 as stated fails: `ClusterSnapshot` is an interface, and with an implementation whose
failing `AddPod` still records the pod, on the input `[B, E, D]` with cutoff 0 and a snapshot
that knows node1 only, `AddPod` succeeds for B and E and first fails at D; when `Process`
returns, the snapshot holds B, E and D, not exactly the insertions of B and E that
succeeded. -/
theorem C10_counterexample :
    keepingContext.AllNodeLister.List = Except.ok [{ Name := "node1" }] ∧
    (FilterOutExpendableAndSplit 0 [podB, podE, podD] [{ Name := "node1" }]
      keepingContext.AutoscalingOptions.ExpendablePodsPriorityCutoff).2 =
        [podB, podE] ++ podD :: [] ∧
    allAddPodsSucceed keepingContext worldNode1.snapshot [podB, podE] = true ∧
    (keepingContext.ClusterSnapshot.AddPod
      (snapshotAfter keepingContext worldNode1.snapshot [podB, podE]) podD
      podD.Status.NominatedNodeName).1 = some (Err.plain "node not found") ∧
    (Process 0 keepingContext [podB, podE, podD] worldNode1).1 =
      Except.error (ToAutoscalerError AutoscalerErrorType.InternalError
        (Err.plain "node not found")) ∧
    (Process 0 keepingContext [podB, podE, podD] worldNode1).2.snapshot =
      { nodes := ["node1"],
        placed := [("node1", podB), ("node1", podE), ("node2", podD)] } ∧
    snapshotAfter keepingContext worldNode1.snapshot [podB, podE] =
      { nodes := ["node1"], placed := [("node1", podB), ("node1", podE)] } ∧
    (Process 0 keepingContext [podB, podE, podD] worldNode1).2.snapshot ≠
      snapshotAfter keepingContext worldNode1.snapshot [podB, podE] := by
  have h1 : (Process 0 keepingContext [podB, podE, podD] worldNode1).2.snapshot =
      { nodes := ["node1"],
        placed := [("node1", podB), ("node1", podE), ("node2", podD)] } := rfl
  have h2 : snapshotAfter keepingContext worldNode1.snapshot [podB, podE] =
      { nodes := ["node1"], placed := [("node1", podB), ("node1", podE)] } := rfl
  refine ⟨rfl, rfl, rfl, rfl, rfl, h1, h2, ?_⟩
  rw [h1, h2]
  decide

/-- C10, amended: if `AddPod` first fails at the waiting pod `p`, after the waiting pods
`done`, then when `Process` returns the snapshot is the one the failing call left behind on
top of the insertions of `done` in order, each at its nominated node: nothing is rolled back
and `Process` makes no call after the failing one.  When the failing call itself leaves the
snapshot as it found it, the snapshot is exactly the one produced by the insertions of
`done`. -/
theorem C10_snapshot_after_failure {σ : Type} (d : Int) (ctx : AutoscalingContext σ)
    (pods : List Pod) (w : World σ) (nodes : List Node) (done rest : List Pod) (p : Pod)
    (e : Err)
    (hl : ctx.AllNodeLister.List = Except.ok nodes)
    (hs : (FilterOutExpendableAndSplit d pods nodes
        ctx.AutoscalingOptions.ExpendablePodsPriorityCutoff).2 = done ++ p :: rest)
    (hdone : allAddPodsSucceed ctx w.snapshot done = true)
    (hfail : (ctx.ClusterSnapshot.AddPod (snapshotAfter ctx w.snapshot done) p
        p.Status.NominatedNodeName).1 = some e) :
    (Process d ctx pods w).2.snapshot =
      (ctx.ClusterSnapshot.AddPod (snapshotAfter ctx w.snapshot done) p
        p.Status.NominatedNodeName).2 ∧
    (addPreemptiblePodsToSnapshot ctx (done ++ p :: rest) w).2.snapshot =
      (ctx.ClusterSnapshot.AddPod (snapshotAfter ctx w.snapshot done) p
        p.Status.NominatedNodeName).2 ∧
    callsMade w (Process d ctx pods w).2 =
      Call.ListNodes :: (done.map (fun q => Call.AddPod q q.Status.NominatedNodeName none) ++
        [Call.AddPod p p.Status.NominatedNodeName (some e)]) ∧
    ((ctx.ClusterSnapshot.AddPod (snapshotAfter ctx w.snapshot done) p
        p.Status.NominatedNodeName).2 = snapshotAfter ctx w.snapshot done →
      (Process d ctx pods w).2.snapshot = snapshotAfter ctx w.snapshot done) := by
  have hP : (Process d ctx pods w).2 =
      { snapshot := (ctx.ClusterSnapshot.AddPod (snapshotAfter ctx w.snapshot done) p
          p.Status.NominatedNodeName).2,
        trace := w.trace ++ [Call.ListNodes] ++ (addPodCalls done ++
          [Call.AddPod p p.Status.NominatedNodeName (some e)]) } := by
    rw [Process_of_list_ok d ctx pods w nodes hl, hs,
      addPreemptible_of_fail ctx done rest p e
        { snapshot := w.snapshot, trace := w.trace ++ [Call.ListNodes] } hdone hfail]
  refine ⟨by rw [hP], ?_, ?_, ?_⟩
  · rw [addPreemptible_of_fail ctx done rest p e w hdone hfail]
  · rw [hP]
    simp [callsMade, addPodCalls]
  · intro h
    rw [hP]
    exact h

/-- C10 amended, with B and then E inserted at node1 before the insertion of D at the unknown
node2 fails and leaves the snapshot as it found it: the snapshot holds B and E at node1, in
that order, and nothing else. -/
theorem C10_snapshot_after_failure_witness :
    allAddPodsSucceed scenarioContext worldNode1.snapshot [podB, podE] = true ∧
    (Process 0 scenarioContext [podB, podA, podE, podD, podC, podB] worldNode1).2.snapshot =
      { nodes := ["node1"], placed := [("node1", podB), ("node1", podE)] } :=
  ⟨rfl, (C10_snapshot_after_failure 0 scenarioContext [podB, podA, podE, podD, podC, podB]
    worldNode1 [{ Name := "node1" }] [podB, podE] [podB] podD (Err.plain "node not found")
    rfl rfl rfl rfl).2.2.2 rfl⟩

/-- C4: a pod whose priority is strictly below the cutoff is never in the list `Process`
returns and is never passed to `AddPod`, whatever its nomination, the input list, the node
lister and the snapshot. -/
theorem C4_expendable_dropped {σ : Type} (d : Int) (ctx : AutoscalingContext σ)
    (pods : List Pod) (w : World σ) (p : Pod)
    (h : effectivePriority d p < ctx.AutoscalingOptions.ExpendablePodsPriorityCutoff) :
    ¬ returnedIn p (Process d ctx pods w).1 ∧
    ¬ passedToAddPod p (callsMade w (Process d ctx pods w).2) := by
  have hx := (isExpendable_eq_true_iff d p _).2 h
  constructor
  · intro hr
    have := (Process_returned d ctx pods w p hr).2.1
    rw [hx] at this
    cases this
  · intro hr
    have := (Process_passed d ctx pods w p hr).2.1
    rw [hx] at this
    cases this

/-- C4, with pod F of priority -1 nominated to node1, which the snapshot knows, and cutoff 0:
F is neither returned nor passed to `AddPod`. -/
theorem C4_expendable_dropped_witness :
    effectivePriority 0 podF < scenarioContext.AutoscalingOptions.ExpendablePodsPriorityCutoff ∧
    ¬ returnedIn podF (Process 0 scenarioContext [podF, podB, podC] worldNode1).1 ∧
    ¬ passedToAddPod podF
      (callsMade worldNode1 (Process 0 scenarioContext [podF, podB, podC] worldNode1).2) :=
  ⟨by decide, C4_expendable_dropped 0 scenarioContext [podF, podB, podC] worldNode1 podF
    (by decide)⟩

/-- C5 as stated fails: with cutoff 0 and a snapshot that knows node1 only, on the input
`[D, B]` the insertion of D at node2 fails and `Process` returns; B, of priority 10 and
nominated to node1, is never passed to `AddPod`. -/
theorem C5_counterexample :
    podB ∈ [podD, podB] ∧
    scenarioContext.AutoscalingOptions.ExpendablePodsPriorityCutoff ≤ effectivePriority 0 podB ∧
    podB.Status.NominatedNodeName ≠ "" ∧
    ¬ passedToAddPod podB
      (callsMade worldNode1 (Process 0 scenarioContext [podD, podB] worldNode1).2) := by
  refine ⟨by simp, by decide, by decide, ?_⟩
  have hc : callsMade worldNode1 (Process 0 scenarioContext [podD, podB] worldNode1).2 =
      [Call.ListNodes, Call.AddPod podD "node2" (some (Err.plain "node not found"))] := rfl
  rintro ⟨n, r, h⟩
  rw [hc] at h
  have hne : podB ≠ podD := by decide
  simp [hne] at h

/-- C5, amended: a pod of the input whose priority is at or above the cutoff and whose
nomination is non-empty never appears in the list `Process` returns; `AddPod` is called with
it and its nominated node name whenever the node listing succeeds and no `AddPod` call for a
waiting pod before it fails, and in particular, with success, whenever `Process` returns
without error. -/
theorem C5_nominated_attempted {σ : Type} (d : Int) (ctx : AutoscalingContext σ)
    (pods : List Pod) (w : World σ) (p : Pod) (hp : p ∈ pods)
    (hprio : ctx.AutoscalingOptions.ExpendablePodsPriorityCutoff ≤ effectivePriority d p)
    (hnom : p.Status.NominatedNodeName ≠ "") :
    ¬ returnedIn p (Process d ctx pods w).1 ∧
    (∀ out, (Process d ctx pods w).1 = Except.ok out →
      Call.AddPod p p.Status.NominatedNodeName none ∈ callsMade w (Process d ctx pods w).2) ∧
    (∀ nodes done rest, ctx.AllNodeLister.List = Except.ok nodes →
      (FilterOutExpendableAndSplit d pods nodes
        ctx.AutoscalingOptions.ExpendablePodsPriorityCutoff).2 = done ++ p :: rest →
      allAddPodsSucceed ctx w.snapshot done = true →
      ∃ r, Call.AddPod p p.Status.NominatedNodeName r ∈
        callsMade w (Process d ctx pods w).2) := by
  have hx := (isExpendable_eq_false_iff d p _).2 hprio
  refine ⟨?_, ?_, ?_⟩
  · intro hr
    exact hnom (Process_returned d ctx pods w p hr).2.2
  · intro out hout
    obtain ⟨nodes, _, _, _, hw⟩ := Process_ok_inv d ctx pods w out hout
    have hmem := (mem_split_snd d pods nodes _ p).2 ⟨hp, hx, hnom⟩
    rw [hw]
    simp only [callsMade, List.drop_left, List.mem_cons, addPodCalls, List.mem_map]
    exact Or.inr ⟨p, hmem, rfl⟩
  · intro nodes done rest hl hs hdone
    obtain ⟨r, calls, hc⟩ := addPreemptible_head_called ctx p rest
      { snapshot := snapshotAfter ctx w.snapshot done,
        trace := (w.trace ++ [Call.ListNodes]) ++ addPodCalls done }
    have ht : (Process d ctx pods w).2.trace =
        w.trace ++ (Call.ListNodes :: (addPodCalls done ++
          Call.AddPod p p.Status.NominatedNodeName r :: calls)) := by
      rw [Process_of_list_ok d ctx pods w nodes hl, hs,
        addPreemptible_append ctx done (p :: rest)
          { snapshot := w.snapshot, trace := w.trace ++ [Call.ListNodes] } hdone]
      cases hr : (addPreemptiblePodsToSnapshot ctx (p :: rest)
          { snapshot := snapshotAfter ctx w.snapshot done,
            trace := (w.trace ++ [Call.ListNodes]) ++ addPodCalls done }) with
      | mk r2 w2 =>
        rw [hr] at hc
        cases r2 <;> simpa using hc
    refine ⟨r, ?_⟩
    simp [callsMade, ht]

/-- C5 amended, at the first end-to-end scenario: B is inserted at node1 and not returned. -/
theorem C5_nominated_attempted_witness :
    podB ∈ [podA, podB, podC] ∧
    scenarioContext.AutoscalingOptions.ExpendablePodsPriorityCutoff ≤ effectivePriority 0 podB ∧
    podB.Status.NominatedNodeName ≠ "" ∧
    ¬ returnedIn podB (Process 0 scenarioContext [podA, podB, podC] worldNode1).1 ∧
    Call.AddPod podB "node1" none ∈
      callsMade worldNode1 (Process 0 scenarioContext [podA, podB, podC] worldNode1).2 :=
  ⟨by simp, by decide, by decide,
   (C5_nominated_attempted 0 scenarioContext [podA, podB, podC] worldNode1 podB (by simp)
      (by decide) (by decide)).1,
   (C5_nominated_attempted 0 scenarioContext [podA, podB, podC] worldNode1 podB (by simp)
      (by decide) (by decide)).2.1 [podC] rfl⟩

/-- C6 as stated fails: in the second end-to-end scenario (cutoff 0, pods A, B, C, a snapshot
that does not know node1) the insertion of B fails and `Process` returns no list, so C, of
priority 10 and without nomination, is not in a returned list. -/
theorem C6_counterexample :
    podC ∈ [podA, podB, podC] ∧
    scenarioContext.AutoscalingOptions.ExpendablePodsPriorityCutoff ≤ effectivePriority 0 podC ∧
    podC.Status.NominatedNodeName = "" ∧
    (Process 0 scenarioContext [podA, podB, podC] worldNoNode).1 =
      Except.error (ToAutoscalerError AutoscalerErrorType.InternalError
        (Err.plain "node not found")) ∧
    ¬ returnedIn podC (Process 0 scenarioContext [podA, podB, podC] worldNoNode).1 := by
  refine ⟨by simp, by decide, by decide, rfl, ?_⟩
  rintro ⟨out, h, _⟩
  have hr : (Process 0 scenarioContext [podA, podB, podC] worldNoNode).1 =
      Except.error (ToAutoscalerError AutoscalerErrorType.InternalError
        (Err.plain "node not found")) := rfl
  rw [hr] at h
  cases h

/-- C6, amended: whenever `Process` returns without error, a pod of the input whose priority
is at or above the cutoff and that has no nomination is, unmodified, in the returned list;
`Process` does return such a list whenever the node listing and every `AddPod` call succeed;
in the scenario with cutoff 0, a snapshot that knows node1 and pods A (priority -5, no
nomination), B (priority 10, nominated to node1) and C (priority 10, no nomination) the
output is exactly `[C]`. -/
theorem C6_unschedulable_returned :
    (∀ {σ : Type} (d : Int) (ctx : AutoscalingContext σ) (pods : List Pod) (w : World σ)
      (p : Pod), p ∈ pods →
      ctx.AutoscalingOptions.ExpendablePodsPriorityCutoff ≤ effectivePriority d p →
      p.Status.NominatedNodeName = "" →
      (∀ out, (Process d ctx pods w).1 = Except.ok out → p ∈ out) ∧
      (∀ nodes, ctx.AllNodeLister.List = Except.ok nodes →
        allAddPodsSucceed ctx w.snapshot (FilterOutExpendableAndSplit d pods nodes
          ctx.AutoscalingOptions.ExpendablePodsPriorityCutoff).2 = true →
        returnedIn p (Process d ctx pods w).1)) ∧
    (Process 0 scenarioContext [podA, podB, podC] worldNode1).1 = Except.ok [podC] := by
  refine ⟨?_, rfl⟩
  intro σ d ctx pods w p hp hprio hnom
  have hx := (isExpendable_eq_false_iff d p _).2 hprio
  constructor
  · intro out hout
    obtain ⟨nodes, _, ho, _, _⟩ := Process_ok_inv d ctx pods w out hout
    rw [ho]
    exact (mem_split_fst d pods nodes _ p).2 ⟨hp, hx, hnom⟩
  · intro nodes hl hall
    refine ⟨_, ?_, (mem_split_fst d pods nodes _ p).2 ⟨hp, hx, hnom⟩⟩
    rw [Process_of_list_ok d ctx pods w nodes hl,
      addPreemptible_of_succeed ctx _
        { snapshot := w.snapshot, trace := w.trace ++ [Call.ListNodes] } hall]

/-- C6 amended, at the first end-to-end scenario: `Process` returns `[C]` and C is in it. -/
theorem C6_unschedulable_returned_witness :
    podC ∈ [podA, podB, podC] ∧
    scenarioContext.AutoscalingOptions.ExpendablePodsPriorityCutoff ≤ effectivePriority 0 podC ∧
    podC.Status.NominatedNodeName = "" ∧
    (Process 0 scenarioContext [podA, podB, podC] worldNode1).1 = Except.ok [podC] ∧
    podC ∈ [podC] :=
  ⟨by simp, by decide, by decide, rfl,
   (C6_unschedulable_returned.1 0 scenarioContext [podA, podB, podC] worldNode1 podC (by simp)
      (by decide) (by decide)).1 [podC] rfl⟩

/-- C7 as stated fails: with cutoff 0 and a snapshot that knows node1 only, on the input
`[A, D, B, C]` the insertion of D at node2 fails and `Process` returns no list; B, which is in
the input, is not expendable, is not returned and is not inserted into the snapshot. -/
theorem C7_counterexample :
    podB ∈ [podA, podD, podB, podC] ∧
    ¬ exactlyOne
      (isExpendable 0 podB scenarioContext.AutoscalingOptions.ExpendablePodsPriorityCutoff = true)
      (returnedIn podB (Process 0 scenarioContext [podA, podD, podB, podC] worldNode1).1)
      (insertedIntoSnapshot podB
        (callsMade worldNode1
          (Process 0 scenarioContext [podA, podD, podB, podC] worldNode1).2)) := by
  refine ⟨by simp, ?_⟩
  have h1 : ¬ (isExpendable 0 podB
      scenarioContext.AutoscalingOptions.ExpendablePodsPriorityCutoff = true) := by decide
  have hr : (Process 0 scenarioContext [podA, podD, podB, podC] worldNode1).1 =
      Except.error (ToAutoscalerError AutoscalerErrorType.InternalError
        (Err.plain "node not found")) := rfl
  have h2 : ¬ returnedIn podB
      (Process 0 scenarioContext [podA, podD, podB, podC] worldNode1).1 := by
    rintro ⟨out, h, _⟩
    rw [hr] at h
    cases h
  have hc : callsMade worldNode1
      (Process 0 scenarioContext [podA, podD, podB, podC] worldNode1).2 =
      [Call.ListNodes, Call.AddPod podD "node2" (some (Err.plain "node not found"))] := rfl
  have h3 : ¬ insertedIntoSnapshot podB (callsMade worldNode1
      (Process 0 scenarioContext [podA, podD, podB, podC] worldNode1).2) := by
    rintro ⟨n, h⟩
    rw [hc] at h
    simp at h
  rintro (⟨h, _, _⟩ | ⟨_, h, _⟩ | ⟨_, _, h⟩)
  · exact h1 h
  · exact h2 h
  · exact h3 h

/-- C7, amended: on every run of `Process` no pod is in two of the three classes (dropped as
expendable, returned in the unschedulable output, inserted into the snapshot), so no pod
inserted into the snapshot appears in the returned list; and whenever `Process` returns
without error, each input pod is in exactly one of the three. -/
theorem C7_partition {σ : Type} (d : Int) (ctx : AutoscalingContext σ) (pods : List Pod)
    (w : World σ) (p : Pod) :
    ¬ (isExpendable d p ctx.AutoscalingOptions.ExpendablePodsPriorityCutoff = true ∧
        returnedIn p (Process d ctx pods w).1) ∧
    ¬ (isExpendable d p ctx.AutoscalingOptions.ExpendablePodsPriorityCutoff = true ∧
        insertedIntoSnapshot p (callsMade w (Process d ctx pods w).2)) ∧
    ¬ (insertedIntoSnapshot p (callsMade w (Process d ctx pods w).2) ∧
        returnedIn p (Process d ctx pods w).1) ∧
    ((∃ out, (Process d ctx pods w).1 = Except.ok out) → p ∈ pods →
      exactlyOne
        (isExpendable d p ctx.AutoscalingOptions.ExpendablePodsPriorityCutoff = true)
        (returnedIn p (Process d ctx pods w).1)
        (insertedIntoSnapshot p (callsMade w (Process d ctx pods w).2))) := by
  have hret := Process_returned d ctx pods w p
  have hins : insertedIntoSnapshot p (callsMade w (Process d ctx pods w).2) →
      isExpendable d p ctx.AutoscalingOptions.ExpendablePodsPriorityCutoff = false ∧
        p.Status.NominatedNodeName ≠ "" := by
    rintro ⟨n, h⟩
    exact (Process_passed d ctx pods w p ⟨n, none, h⟩).2
  have e1 : ¬ (isExpendable d p ctx.AutoscalingOptions.ExpendablePodsPriorityCutoff = true ∧
      returnedIn p (Process d ctx pods w).1) := by
    rintro ⟨hx, hr⟩
    have := (hret hr).2.1
    rw [hx] at this
    cases this
  have e2 : ¬ (isExpendable d p ctx.AutoscalingOptions.ExpendablePodsPriorityCutoff = true ∧
      insertedIntoSnapshot p (callsMade w (Process d ctx pods w).2)) := by
    rintro ⟨hx, hi⟩
    have := (hins hi).1
    rw [hx] at this
    cases this
  have e3 : ¬ (insertedIntoSnapshot p (callsMade w (Process d ctx pods w).2) ∧
      returnedIn p (Process d ctx pods w).1) := by
    rintro ⟨hi, hr⟩
    exact (hins hi).2 (hret hr).2.2
  refine ⟨e1, e2, e3, ?_⟩
  rintro ⟨out, hout⟩ hp
  obtain ⟨nodes, _, ho, _, hw⟩ := Process_ok_inv d ctx pods w out hout
  by_cases hx : isExpendable d p ctx.AutoscalingOptions.ExpendablePodsPriorityCutoff = true
  · exact Or.inl ⟨hx, fun hr => e1 ⟨hx, hr⟩, fun hi => e2 ⟨hx, hi⟩⟩
  · have hx2 : isExpendable d p ctx.AutoscalingOptions.ExpendablePodsPriorityCutoff = false := by
      simpa using hx
    by_cases hn : p.Status.NominatedNodeName = ""
    · have hr : returnedIn p (Process d ctx pods w).1 :=
        ⟨out, hout, by rw [ho]; exact (mem_split_fst d pods nodes _ p).2 ⟨hp, hx2, hn⟩⟩
      exact Or.inr (Or.inl ⟨hx, hr, fun hi => e3 ⟨hi, hr⟩⟩)
    · have hi : insertedIntoSnapshot p (callsMade w (Process d ctx pods w).2) := by
        refine ⟨p.Status.NominatedNodeName, ?_⟩
        rw [hw]
        simp only [callsMade, List.drop_left, List.mem_cons, addPodCalls, List.mem_map]
        exact Or.inr ⟨p, (mem_split_snd d pods nodes _ p).2 ⟨hp, hx2, hn⟩, rfl⟩
      exact Or.inr (Or.inr ⟨hx, fun hr => e3 ⟨hi, hr⟩, hi⟩)

/-- C7 amended, at the first end-to-end scenario: `Process` returns a list and B is in
exactly one class. -/
theorem C7_partition_witness :
    (∃ out, (Process 0 scenarioContext [podA, podB, podC] worldNode1).1 = Except.ok out) ∧
    podB ∈ [podA, podB, podC] ∧
    exactlyOne
      (isExpendable 0 podB scenarioContext.AutoscalingOptions.ExpendablePodsPriorityCutoff = true)
      (returnedIn podB (Process 0 scenarioContext [podA, podB, podC] worldNode1).1)
      (insertedIntoSnapshot podB
        (callsMade worldNode1 (Process 0 scenarioContext [podA, podB, podC] worldNode1).2)) :=
  ⟨⟨[podC], rfl⟩, by simp,
   (C7_partition 0 scenarioContext [podA, podB, podC] worldNode1 podB).2.2.2 ⟨[podC], rfl⟩
     (by simp)⟩

/-! ## The claims on `clearTPURequests` -/

theorem hasTPURequest_clearTPURequest (isTPUResource : String → Bool) (pod : Pod) :
    tpu.hasTPURequest isTPUResource (tpu.clearTPURequest isTPUResource pod) = false := by
  simp [tpu.hasTPURequest, tpu.clearTPURequest, List.any_eq_false, List.mem_filter]

theorem ClearTPURequests_idem (isTPUResource : String → Bool) (pods : List Pod) :
    tpu.ClearTPURequests isTPUResource (tpu.ClearTPURequests isTPUResource pods) =
      tpu.ClearTPURequests isTPUResource pods := by
  simp only [tpu.ClearTPURequests, List.map_map]
  apply List.map_congr_left
  intro p _
  simp only [Function.comp]
  by_cases h : tpu.hasTPURequest isTPUResource p = true
  · simp [h, hasTPURequest_clearTPURequest]
  · simp [h]

theorem ClearTPURequests_get_unmatched (isTPUResource : String → Bool) (pods : List Pod) (i : Nat)
    (p : Pod) (hi : pods[i]? = some p) (hp : tpu.hasTPURequest isTPUResource p = false) :
    (tpu.ClearTPURequests isTPUResource pods)[i]? = some p := by
  simp [tpu.ClearTPURequests, List.getElem?_map, hi, hp]

/-- C8: `clearTPURequests.Process` is idempotent, whatever the contexts: it returns a list,
and applied to that list it returns the same list again; the returned list has the length of
the input, and a pod of the input that does not match the accelerator signature is returned
unchanged at its position. -/
theorem C8_clearTPU_idempotent_identity (isTPUResource : String → Bool) {σ τ : Type}
    (ctx : AutoscalingContext σ) (ctx2 : AutoscalingContext τ) (pods : List Pod)
    (w : World σ) (w2 : World τ) :
    (∃ out, (clearTPURequests.Process isTPUResource ctx pods w).1 = Except.ok out ∧
      (clearTPURequests.Process isTPUResource ctx2 out w2).1 = Except.ok out) ∧
    (∀ out, (clearTPURequests.Process isTPUResource ctx pods w).1 = Except.ok out →
      out.length = pods.length ∧
      ∀ (i : Nat) (p : Pod), pods[i]? = some p → tpu.hasTPURequest isTPUResource p = false →
        out[i]? = some p) := by
  constructor
  · refine ⟨tpu.ClearTPURequests isTPUResource pods, rfl, ?_⟩
    simp only [clearTPURequests.Process]
    rw [ClearTPURequests_idem]
  · intro out hout
    have ho : out = tpu.ClearTPURequests isTPUResource pods := (Except.ok.inj hout).symm
    subst ho
    refine ⟨by simp [tpu.ClearTPURequests], ?_⟩
    intro i p hi hp
    exact ClearTPURequests_get_unmatched isTPUResource pods i p hi hp

/-- C8, on the list `[C, T]`: T loses its accelerator request, C, which has none, is returned
unchanged, and a second pass changes nothing. -/
theorem C8_clearTPU_idempotent_identity_witness :
    (clearTPURequests.Process exampleSignature scenarioContext [podC, podT] worldNode1).1 =
      Except.ok [podC, tpu.clearTPURequest exampleSignature podT] ∧
    tpu.clearTPURequest exampleSignature podT ≠ podT ∧
    [podC, tpu.clearTPURequest exampleSignature podT][0]? = some podC :=
  ⟨rfl, by decide,
   ((C8_clearTPU_idempotent_identity exampleSignature scenarioContext scenarioContext
      [podC, podT] worldNode1 worldNode1).2 [podC, tpu.clearTPURequest exampleSignature podT]
      rfl).2 0 podC rfl rfl⟩

/-- C9: `clearTPURequests.Process` has no error path and no effect: for every context and
pod list it returns a nil error with exactly `tpu.ClearTPURequests(pods)`, leaves the world as
it was (no node-lister call, no snapshot call, same snapshot), and its result is the same
under any other context. -/
theorem C9_clearTPU_pure (isTPUResource : String → Bool) {σ τ : Type}
    (ctx : AutoscalingContext σ) (ctx2 : AutoscalingContext τ) (pods : List Pod)
    (w : World σ) (w2 : World τ) :
    (clearTPURequests.Process isTPUResource ctx pods w).1 =
      Except.ok (tpu.ClearTPURequests isTPUResource pods) ∧
    (clearTPURequests.Process isTPUResource ctx pods w).2 = w ∧
    callsMade w (clearTPURequests.Process isTPUResource ctx pods w).2 = [] ∧
    (clearTPURequests.Process isTPUResource ctx2 pods w2).1 =
      (clearTPURequests.Process isTPUResource ctx pods w).1 := by
  refine ⟨rfl, rfl, ?_, rfl⟩
  simp [clearTPURequests.Process, callsMade]

end Autoscaler
